import Mathlib

/-!
Verification development for the StreamDJ streaming pipeline.

Shallow embedding of the core components of the StreamDJ repository:

* `src/player/audio-socket.js` — Transport Socket with reconnect backoff
* `src/server/ffmpeg-manager.js` — Encode Supervisor with crash-loop protection
* `src/server/tcp-server.js` — Ingest Listener (producer socket) and HTTP routes
* `src/server/silence-generator.js` — Silence Filler
* `src/player/playback-controller.js` — Decode Controller
* `src/server.js` — Orchestrator wiring (the `onData` ingest handler)

Machine integers are modelled as `Nat` (timestamps and delays in the source are
non-negative millisecond values well below 2^53, and no arithmetic here can
overflow a JavaScript number).  Timers and asynchronous callbacks are modelled
as explicit events consumed by step functions; fallible operations take their
outcome (e.g. whether `stream.write` returned `false` or threw `EPIPE`) as an
explicit parameter.
-/

namespace StreamDJ

/-! ### Configuration constants

Default values from `src/server/constants.js` and
`src/player/audio-socket.js`. -/

/-- `FFMPEG_RESTART_MAX_ATTEMPTS` default (constants.js). -/
def FFMPEG_RESTART_MAX_ATTEMPTS : Nat := 5

/-- `FFMPEG_RESTART_WINDOW_MS` default (constants.js). -/
def FFMPEG_RESTART_WINDOW_MS : Nat := 60000

/-- `FFMPEG_RESTART_BACKOFF_BASE_MS` default (constants.js). -/
def FFMPEG_RESTART_BACKOFF_BASE_MS : Nat := 500

/-- `FFMPEG_RESTART_BACKOFF_MAX_MS` default (constants.js). -/
def FFMPEG_RESTART_BACKOFF_MAX_MS : Nat := 60000

/-- `FFMPEG_STABLE_RUN_MS` default (constants.js). -/
def FFMPEG_STABLE_RUN_MS : Nat := 120000

/-- The hard-coded 5-minute automatic-unblock timeout in
`scheduleRestart` (ffmpeg-manager.js line 269). -/
def FFMPEG_BLOCK_TIMEOUT_MS : Nat := 300000

/-- `FFMPEG_AUTO_RESTART` default: enabled unless the env var is "false". -/
def FFMPEG_AUTO_RESTART : Bool := true

/-- `SILENCE_CHUNK_SIZE = Math.floor(44100 * 2 * 2 * (20 / 1000))` bytes
(constants.js). -/
def SILENCE_CHUNK_SIZE : Nat := 3528

/-- Reconnect delay cap, the literal `30000` in `scheduleReconnect`
(audio-socket.js lines 490 and 501). -/
def RECONNECT_CAP_MS : Nat := 30000

/-- Reconnect delay floor: `state.reconnectDelay` initial value and the value
restored on a successful connection (audio-socket.js lines 446 and 520). -/
def RECONNECT_FLOOR_MS : Nat := 1000

/-! ### Transport Socket (`src/player/audio-socket.js`)

State relevant to the reconnect algorithm.  `scheduleReconnect` is modelled as
a function producing the delay it passes to `setTimeout` (if any) together
with the updated state; the `connect` handler for a successful connection is
`connectSuccessReset`. -/

/-- The reconnect-relevant fields of the `SocketState` object in
audio-socket.js. -/
structure SocketState where
  reconnectDelay : Nat
  reconnectAttempts : Nat
deriving Repr, DecidableEq

/-- `scheduleReconnect` (audio-socket.js lines 465-502), restricted to the
path where no timer is already pending and the socket is not shutting down
(both guards merely return without scheduling).  Returns the delay handed to
`setTimeout`, or `none` when the maximum attempt count is reached, plus the
updated state. -/
def scheduleReconnect (maxReconnectAttempts : Nat) (s : SocketState) :
    Option Nat × SocketState :=
  if maxReconnectAttempts ≤ s.reconnectAttempts then
    (none, s)
  else
    let delay := min s.reconnectDelay RECONNECT_CAP_MS
    (some delay,
      { reconnectDelay := min (delay * 2) RECONNECT_CAP_MS,
        reconnectAttempts := s.reconnectAttempts + 1 })

/-- The `connect` event handler's effect on the reconnect fields
(audio-socket.js lines 520-521): delay back to the floor, attempts to 0. -/
def connectSuccessReset (_s : SocketState) : SocketState :=
  { reconnectDelay := RECONNECT_FLOOR_MS, reconnectAttempts := 0 }

/-- The sequence of delays scheduled over `n` consecutive connection failures
starting from state `s` (each `close` event invokes `scheduleReconnect`; the
list stops early once the attempt maximum refuses to schedule). -/
def failDelays (maxReconnectAttempts : Nat) : SocketState → Nat → List Nat
  | _, 0 => []
  | s, n + 1 =>
    match scheduleReconnect maxReconnectAttempts s with
    | (none, _) => []
    | (some d, s') => d :: failDelays maxReconnectAttempts s' n

/-! ### Encode Supervisor (`src/server/ffmpeg-manager.js`)

The closure state of `createFfmpegManager` relevant to restart scheduling,
crash-loop protection and the blocked state.  Asynchronous callbacks (process
`close`/`error` events and the backoff, block-timeout and stability timers)
are events consumed by `mgrStep`; a timer can only fire when it is armed,
captured by `mgrEnabled`. -/

/-- The restart-relevant closure state of `createFfmpegManager`:
`ffmpegProcess` (as a liveness flag), `rtmpStatus.connected`,
`ffmpegWritable`, `restartingFfmpeg`, `ffmpegRestartAttempts`,
`ffmpegStartedAt`, `ffmpegBlocked`, `ffmpegBlockTimeout` (as an armed flag),
the pending backoff `setTimeout` of `scheduleRestart` (as an armed flag), and
`rtmpStatus.ffmpegRestarts`. -/
structure MgrState where
  procAlive : Bool
  connected : Bool
  writable : Bool
  restarting : Bool
  restartAttempts : List Nat
  startedAt : Option Nat
  blocked : Bool
  blockTimeoutArmed : Bool
  spawnTimerPending : Bool
  restarts : Nat
deriving Repr, DecidableEq

/-- The pruning filter in `scheduleRestart` (ffmpeg-manager.js lines 249-251):
keep timestamps with `now - ts <= FFMPEG_RESTART_WINDOW_MS`.  (`Nat`
subtraction truncates at 0, matching the JavaScript comparison for timestamps
not later than `now`; a timestamp later than `now` passes the filter in both
semantics.) -/
def pruneAttempts (now : Nat) (l : List Nat) : List Nat :=
  l.filter (fun ts => now - ts ≤ FFMPEG_RESTART_WINDOW_MS)

/-- The exponential-backoff base delay in `scheduleRestart`
(ffmpeg-manager.js lines 283-286); the random jitter added on top is bounded
by `min 1000 baseDelay` and does not affect any claim here. -/
def backoffBaseDelay (attemptNo : Nat) : Nat :=
  min (FFMPEG_RESTART_BACKOFF_BASE_MS * 2 ^ attemptNo) FFMPEG_RESTART_BACKOFF_MAX_MS

/-- `scheduleRestart` (ffmpeg-manager.js lines 233-310).  Either enters the
blocked state (arming the 5-minute automatic unblock) when the pruned window
holds at least `FFMPEG_RESTART_MAX_ATTEMPTS` timestamps, or records the new
attempt and arms the backoff spawn timer. -/
def scheduleRestart (now : Nat) (s : MgrState) : MgrState :=
  if !FFMPEG_AUTO_RESTART then s
  else if s.restarting then s
  else
    let pruned := pruneAttempts now s.restartAttempts
    if FFMPEG_RESTART_MAX_ATTEMPTS ≤ pruned.length then
      { s with restartAttempts := pruned, blocked := true, connected := false,
               blockTimeoutArmed := true }
    else
      { s with restartAttempts := pruned ++ [now], restarts := s.restarts + 1,
               restarting := true, spawnTimerPending := true }

/-- `spawn_` (ffmpeg-manager.js lines 315-439) reduced to its state effect.
`ok = false` covers both failure branches — `spawn` throwing (lines 402-407)
and a child with no PID (lines 409-414) — which set `connected = false` and
`ffmpegBlocked = true` and return without scheduling anything.  `ok = true`
is the success path (lines 416-421): writable reset, connected, start
timestamp recorded (the stability `setTimeout` armed there fires as the
`stabilityTimer` event). -/
def spawnStep (ok : Bool) (now : Nat) (s : MgrState) : MgrState :=
  if !ok then
    { s with connected := false, blocked := true, procAlive := false }
  else
    { s with procAlive := true, writable := true, connected := true,
             startedAt := some now }

/-- Events delivered to the supervisor: an unexpected process `close` (no
planned-restart reason, lines 527-575), a process `error` (lines 577-590),
the backoff timer firing and running `spawn_` with outcome `ok`
(lines 306-309), the 5-minute block timeout (lines 265-269), and the
stability check timer (lines 424-439). -/
inductive MgrEvent where
  | procClose (now : Nat)
  | procError (now : Nat)
  | spawnTimer (ok : Bool) (now : Nat)
  | blockTimeout
  | stabilityTimer (now : Nat)
deriving Repr, DecidableEq

/-- An event that launches (or attempts to launch) the encode subprocess:
only the backoff spawn timer does. -/
def MgrEvent.isSpawnAttempt : MgrEvent → Bool
  | .spawnTimer _ _ => true
  | _ => false

/-- Recognizer for the automatic-unblock timeout event. -/
def MgrEvent.isBlockTimeout : MgrEvent → Bool
  | .blockTimeout => true
  | _ => false

/-- Whether an event can occur in a state: process events need a live
process, timers must be armed.  A stability timer armed by an earlier spawn
may always fire; its handler re-checks its guard. -/
def mgrEnabled (s : MgrState) : MgrEvent → Bool
  | .procClose _ => s.procAlive
  | .procError _ => s.procAlive
  | .spawnTimer _ _ => s.spawnTimerPending
  | .blockTimeout => s.blockTimeoutArmed
  | .stabilityTimer _ => true

/-- One supervisor step.  The `close` handler clears the process handle and
`connected` flag, then (with no planned reason) calls `scheduleRestart`; the
`error` handler calls `scheduleRestart` with the process handle untouched;
the backoff timer clears `restartingFfmpeg` and runs `spawn_`; the block
timeout clears `blocked` and empties the attempt window (lines 265-269); the
stability timer empties the window and clears `blocked` when the process has
run for `FFMPEG_STABLE_RUN_MS` (lines 424-439). -/
def mgrStep (s : MgrState) : MgrEvent → MgrState
  | .procClose now =>
      scheduleRestart now { s with procAlive := false, connected := false }
  | .procError now =>
      scheduleRestart now { s with connected := false }
  | .spawnTimer ok now =>
      spawnStep ok now { s with restarting := false, spawnTimerPending := false }
  | .blockTimeout =>
      { s with blocked := false, restartAttempts := [], blockTimeoutArmed := false }
  | .stabilityTimer now =>
      if s.procAlive && s.startedAt.isSome
          && FFMPEG_STABLE_RUN_MS ≤ now - s.startedAt.getD 0 then
        { s with restartAttempts := [], blocked := false }
      else s

/-- Run a list of events through `mgrStep`. -/
def mgrRun (s : MgrState) (tr : List MgrEvent) : MgrState :=
  tr.foldl mgrStep s

/-- A trace is valid when every event is enabled in the state it occurs in. -/
def mgrValidTrace : MgrState → List MgrEvent → Bool
  | _, [] => true
  | s, e :: es => mgrEnabled s e && mgrValidTrace (mgrStep s e) es

/-! ### Manager API surface and the unblock route
(`createFfmpegManager` return object, ffmpeg-manager.js lines 714-735, and
the `POST /ffmpeg/unblock` handler in http-routes, tcp-server.js
lines 820-826). -/

/-- The property names of the object returned by `createFfmpegManager`
(ffmpeg-manager.js lines 714-735), in source order. -/
def ffmpegManagerApiKeys : List String :=
  ["spawn", "shutdown", "requestRestart",
   "getStdin", "isWritable", "setWritable",
   "isRunning", "isBlocked", "getStatus",
   "setPlannedPause", "clearPlannedPause", "getPlannedPause"]

/-- JavaScript property access `ffmpegManager.manualUnblock` yields a callable
value only if the manager object defines that property. -/
def managerHasManualUnblock : Bool :=
  ffmpegManagerApiKeys.contains "manualUnblock"

/-- Outcome of one `POST /ffmpeg/unblock` request. -/
inductive UnblockRouteResult where
  | status (code : Nat)
  | uncaughtTypeError
deriving Repr, DecidableEq

/-- The `POST /ffmpeg/unblock` handler (tcp-server.js lines 820-826):
`if (ffmpegManager.manualUnblock()) 204 else 409`.  When the property is
absent, calling it throws a `TypeError` before any response branch runs;
`hasFn` is whether the manager defines the function and `unblockResult` the
boolean it would return. -/
def postFfmpegUnblockRoute (hasFn : Bool) (unblockResult : Bool) :
    UnblockRouteResult :=
  if hasFn then
    if unblockResult then .status 204 else .status 409
  else
    .uncaughtTypeError

/-! ### Ingest Listener backpressure
(`onData` orchestrator handler, server.js lines 489-521, together with
`handleProducerData` in tcp-server.js lines 159-179 and the manager's
`onDrain` wiring, server.js lines 468-471 with `resumeProducer`,
tcp-server.js lines 319-330). -/

/-- Outcome of one `stream.write(chunk)` call: accepted (`true`), accepted
but signalling backpressure (`false`), threw `EPIPE`, or threw some other
error. -/
inductive WriteOutcome where
  | ok
  | backpressure
  | epipe
  | otherError
deriving Repr, DecidableEq

/-- A write call that reports the sink is not writable: a `false` return, or
an `EPIPE` throw (which the source and spec treat as "still need to pause",
spec §4.3 failure semantics). -/
def WriteOutcome.reportsNotWritable : WriteOutcome → Bool
  | .ok => false
  | .backpressure => true
  | .epipe => true
  | .otherError => false

/-- Joint state of the single producer socket and the shared
`ffmpegWritable` flag, for the backpressure protocol.  `pendingResume`
mirrors `pendingSocketResume === socket` for the current producer. -/
structure IngestState where
  ffWritable : Bool
  socketPaused : Bool
  pendingResume : Bool
deriving Repr, DecidableEq

/-- Events of the backpressure protocol: a producer chunk arriving (with the
encoder stdin availability and the outcome its write would have), and the
encoder stdin `drain` event. -/
inductive IngestEvent where
  | chunk (stdinAvail : Bool) (w : WriteOutcome)
  | ffmpegDrain
deriving Repr, DecidableEq

/-- The orchestrator `onData` handler (server.js lines 489-521) acting
through `handleProducerData`'s `socketControl` (tcp-server.js lines 159-179):
no stdin → no action; encoder flag not writable → pause; write returning
`false` → clear the flag and pause; `EPIPE` → pause; other write errors are
logged and ignored. -/
def onDataChunk (stdinAvail : Bool) (w : WriteOutcome) (s : IngestState) :
    IngestState :=
  if !stdinAvail then s
  else if !s.ffWritable then
    { s with socketPaused := true, pendingResume := true }
  else
    match w with
    | .ok => s
    | .backpressure =>
        { ffWritable := false, socketPaused := true, pendingResume := true }
    | .epipe => { s with socketPaused := true, pendingResume := true }
    | .otherError => s

/-- The encoder stdin `drain` handler (ffmpeg-manager.js lines 475-480 set
`ffmpegWritable = true` and invoke `onDrain`; server.js lines 468-471 then
call `tcpServer.resumeProducer`, tcp-server.js lines 319-330, which resumes
the pending socket and clears the pending reference). -/
def onFfmpegDrain (s : IngestState) : IngestState :=
  { ffWritable := true,
    socketPaused := if s.pendingResume then false else s.socketPaused,
    pendingResume := false }

/-- One step of the backpressure protocol. -/
def ingestStep (s : IngestState) : IngestEvent → IngestState
  | .chunk stdinAvail w => onDataChunk stdinAvail w s
  | .ffmpegDrain => onFfmpegDrain s

/-- Run a list of backpressure events. -/
def ingestRun (s : IngestState) (tr : List IngestEvent) : IngestState :=
  tr.foldl ingestStep s

/-! ### Silence Filler (`src/server/silence-generator.js`) -/

/-- The closure state of `createSilenceGenerator`: `silenceInterval` (as an
active flag), `silencePaused`, `silenceBackpressure`, and `idleSilenceTimer`
(as an armed flag). -/
structure SilenceState where
  intervalActive : Bool
  paused : Bool
  backpressure : Bool
  idleTimerArmed : Bool
deriving Repr, DecidableEq

/-- What one tick observes: whether `getFfmpegStdin()` returns a live stream
(non-null and not destroyed), the shared `isFfmpegWritable()` flag, and the
outcome the `stdin.write(SILENCE_CHUNK)` call would have. -/
structure SilenceEnv where
  stdinAvail : Bool
  writable : Bool
  writeOutcome : WriteOutcome
deriving Repr, DecidableEq

/-- `writeSilenceChunk` (silence-generator.js lines 41-70).  Returns the new
filler state, the new shared writable flag, and the number of
`stdin.write(SILENCE_CHUNK)` calls performed this tick (0 or 1; each such
call hands the encoder exactly one `SILENCE_CHUNK_SIZE`-byte silent chunk). -/
def writeSilenceChunk (env : SilenceEnv) (s : SilenceState) :
    SilenceState × Bool × Nat :=
  if s.paused || s.backpressure then (s, env.writable, 0)
  else if !env.stdinAvail then ({ s with backpressure := true }, env.writable, 0)
  else if !env.writable then ({ s with backpressure := true }, env.writable, 0)
  else
    match env.writeOutcome with
    | .ok => (s, env.writable, 1)
    | .backpressure => ({ s with backpressure := true }, false, 1)
    | .epipe => ({ s with backpressure := true }, env.writable, 1)
    | .otherError => (s, env.writable, 1)

/-- Operations and timer events of the silence generator:
a tick of the `setInterval` loop (only fires while the interval is active),
`suspendTemporarily` (lines 115-119), the `resumeAfterDelay` call arming the
idle timer (lines 125-135), that idle timer firing, `setBackpressure`,
`resetBackpressure`, `stop` (lines 98-109) and `start`/`ensureSilenceWriter`
(lines 76-92). -/
inductive SilEvent where
  | tick (env : SilenceEnv)
  | suspend
  | armResumeDelay
  | resumeDelayFire
  | setBp (b : Bool)
  | resetBp
  | stopGen
  | startGen
deriving Repr, DecidableEq

/-- One silence-generator step (state only; tick write counts are exposed by
`silTickWrites`). -/
def silStep (s : SilenceState) : SilEvent → SilenceState
  | .tick env => if s.intervalActive then (writeSilenceChunk env s).1 else s
  | .suspend => if s.intervalActive then { s with paused := true } else s
  | .armResumeDelay => { s with idleTimerArmed := true }
  | .resumeDelayFire =>
      if s.idleTimerArmed then
        if s.intervalActive then
          { s with paused := false, backpressure := false, idleTimerArmed := false }
        else { s with idleTimerArmed := false }
      else s
  | .setBp b => { s with backpressure := b }
  | .resetBp => { s with backpressure := false }
  | .stopGen =>
      { intervalActive := false, paused := false, backpressure := false,
        idleTimerArmed := false }
  | .startGen =>
      if s.intervalActive then s
      else { s with intervalActive := true, paused := false, backpressure := false }

/-- Number of `stdin.write` calls a tick performs in state `s` under
environment `env` (no tick fires while the interval is inactive). -/
def silTickWrites (env : SilenceEnv) (s : SilenceState) : Nat :=
  if s.intervalActive then (writeSilenceChunk env s).2.2 else 0

/-- Run a sequence of ticks (one environment per tick), returning the final
state and the total number of write calls. -/
def silRunTicks : SilenceState → List SilenceEnv → SilenceState × Nat
  | s, [] => (s, 0)
  | s, env :: envs =>
      let w := silTickWrites env s
      let (s', total) := silRunTicks (silStep s (.tick env)) envs
      (s', w + total)

/-! ### Decode Controller (`src/player/playback-controller.js` close handler,
with `pickNextIndex` and friends from `src/player/playlist-manager.js`).

The Fisher-Yates shuffle draws from `Math.random`; it is modelled by an
oracle function `shuffleOracle` reordering the index list, assumed only to
preserve membership. -/

/-- The joint playlist/playback state used by the decode close handler:
`playlist.length`, `state.currentIndex` (-1 = none), shuffle mode and queue,
played-index history (playlist-manager.js), and the playback controller's
process flag, stop intent, pause flag and offset (playback-controller.js).
Stop intents are abstracted to an optional tag. -/
structure PlayerState where
  playlistLen : Nat
  currentIndex : Int
  shuffle : Bool
  shuffledQueue : List Nat
  history : List Int
  procRunning : Bool
  stopIntent : Option Nat
  shuttingDown : Bool
  isPaused : Bool
  offset : Nat
deriving Repr, DecidableEq

/-- `refreshShuffleQueue` (playlist-manager.js lines 136-141): all playlist
indices except `excludeIndex` (kept when the playlist has exactly one track),
reordered by the shuffle oracle. -/
def refreshShuffleQueue (shuffleOracle : List Nat → List Nat)
    (excludeIndex : Int) (s : PlayerState) : PlayerState :=
  let indices := (List.range s.playlistLen).filter
    (fun (idx : Nat) => ((idx : Int) ≠ excludeIndex) || s.playlistLen = 1)
  { s with shuffledQueue := shuffleOracle indices }

/-- `pickNextIndex` (playlist-manager.js lines 147-165).  Returns the next
index (−1 when none) and the updated state (the shuffle branch consumes the
head of the queue, refreshing it first when empty).  The JavaScript `%` is
truncated remainder, `Int.tmod`. -/
def pickNextIndex (shuffleOracle : List Nat → List Nat) (s : PlayerState) :
    Int × PlayerState :=
  if s.playlistLen = 0 then (-1, s)
  else if !s.shuffle then
    if s.currentIndex = -1 then (0, s)
    else ((s.currentIndex + 1).tmod (s.playlistLen : Int), s)
  else
    let s₁ := if s.shuffledQueue.isEmpty then
        refreshShuffleQueue shuffleOracle s.currentIndex s
      else s
    match s₁.shuffledQueue with
    | [] => (-1, s₁)
    | n :: rest => ((n : Int), { s₁ with shuffledQueue := rest })

/-- `setCurrentIndex` (playlist-manager.js lines 315-318). -/
def setCurrentIndex (index : Int) (s : PlayerState) : PlayerState :=
  { s with currentIndex := index }

/-- `addToHistory` (playlist-manager.js lines 323-327). -/
def addToHistory (s : PlayerState) : PlayerState :=
  if s.currentIndex ≠ -1 then { s with history := s.history ++ [s.currentIndex] }
  else s

/-- Whether `getTrackAtIndex(index)` returns a track: the index is in
playlist bounds. -/
def trackExists (s : PlayerState) (index : Int) : Bool :=
  0 ≤ index && index < (s.playlistLen : Int)

/-- `playTrackAtIndex` (playback-controller.js lines 165-268) reduced to its
state effect: no-op when the index has no track; otherwise
`setCurrentIndex(index)`, offset and pause state updated, then the decode
`ffmpeg` spawn — failure (throw or no PID) resets the index to −1 and
returns; success records the running process and clears the stop intent. -/
def playTrackAtIndex (spawnOk : Bool) (index : Int) (offset : Nat)
    (s : PlayerState) : PlayerState :=
  if !trackExists s index then s
  else
    let s₁ := { setCurrentIndex index s with offset := offset, isPaused := false }
    if !spawnOk then setCurrentIndex (-1) s₁
    else { s₁ with procRunning := true, stopIntent := none }

/-- The decode-subprocess `close` handler (playback-controller.js
lines 223-258): clear the process handle; return if a stop intent is set or
the controller is shutting down; otherwise `addToHistory`, pick the next
index, and either reset the index to −1 (none available) or play that
track. -/
def onDecodeClose (shuffleOracle : List Nat → List Nat) (spawnOk : Bool)
    (s : PlayerState) : PlayerState :=
  let s₀ := { s with procRunning := false }
  if s₀.stopIntent.isSome then s₀
  else if s₀.shuttingDown then s₀
  else
    let s₁ := addToHistory s₀
    let (next, s₂) := pickNextIndex shuffleOracle s₁
    if next = -1 then setCurrentIndex (-1) s₂
    else playTrackAtIndex spawnOk next 0 s₂

/-! ### Producer socket replacement (`attachProducer`,
tcp-server.js lines 185-243, and the producer `close` handler,
lines 205-227).  Sockets are identified by ids; `currentProducer` and
`pendingSocketResume` hold at most one socket each. -/

/-- The producer-tracking state of `createTcpServer`. -/
structure ProducerState where
  currentProducer : Option Nat
  pendingResume : Option Nat
deriving Repr, DecidableEq

/-- `attachProducer` (tcp-server.js lines 185-243): if a producer is already
tracked it is destroyed first (returned as the first component), then the
new socket is installed as `currentProducer`.  `pendingSocketResume` is not
touched. -/
def attachProducer (sid : Nat) (s : ProducerState) :
    Option Nat × ProducerState :=
  (s.currentProducer, { s with currentProducer := some sid })

/-- The producer socket `close` handler (tcp-server.js lines 205-227): the
guards `pendingSocketResume === socket` and `currentProducer === socket`
clear each reference only when it still denotes the closing socket. -/
def onProducerClose (sid : Nat) (s : ProducerState) : ProducerState :=
  { pendingResume := if s.pendingResume = some sid then none else s.pendingResume,
    currentProducer :=
      if s.currentProducer = some sid then none else s.currentProducer }

/-! ## Theorems -/

/-! ### C4 — Transport Socket reconnect backoff -/

lemma failDelays_succ (maxA : Nat) (s : SocketState) (n : Nat) :
    failDelays maxA s (n + 1) =
      if maxA ≤ s.reconnectAttempts then []
      else
        min s.reconnectDelay RECONNECT_CAP_MS ::
          failDelays maxA
            { reconnectDelay :=
                min (min s.reconnectDelay RECONNECT_CAP_MS * 2) RECONNECT_CAP_MS,
              reconnectAttempts := s.reconnectAttempts + 1 } n := by
  by_cases h : maxA ≤ s.reconnectAttempts
  · simp [failDelays, scheduleReconnect, h]
  · simp [failDelays, scheduleReconnect, h]

lemma failDelays_le_cap (maxA : Nat) :
    ∀ (n : Nat) (s : SocketState), ∀ d ∈ failDelays maxA s n, d ≤ RECONNECT_CAP_MS := by
  intro n
  induction n with
  | zero => intro s d hd; simp [failDelays] at hd
  | succ n ih =>
    intro s d hd
    rw [failDelays_succ] at hd
    by_cases h : maxA ≤ s.reconnectAttempts
    · simp [h] at hd
    · simp only [if_neg h, List.mem_cons] at hd
      rcases hd with h1 | h2
      · subst h1; exact min_le_right _ _
      · exact ih _ d h2

lemma failDelays_head (maxA : Nat) (n : Nat) (s : SocketState) :
    ∀ b ∈ (failDelays maxA s n).head?, b = min s.reconnectDelay RECONNECT_CAP_MS := by
  cases n with
  | zero => simp [failDelays]
  | succ n =>
    rw [failDelays_succ]
    by_cases h : maxA ≤ s.reconnectAttempts
    · simp [h]
    · simp [h]

lemma failDelays_chain (maxA : Nat) :
    ∀ (n : Nat) (s : SocketState),
      List.Chain' (fun a b => b = min (a * 2) RECONNECT_CAP_MS ∧ a ≤ b)
        (failDelays maxA s n) := by
  intro n
  induction n with
  | zero => intro s; simp [failDelays]
  | succ n ih =>
    intro s
    rw [failDelays_succ]
    by_cases h : maxA ≤ s.reconnectAttempts
    · simp [h]
    · simp only [if_neg h]
      refine List.chain'_cons'.mpr ⟨?_, ih _⟩
      intro b hb
      have hbv := failDelays_head maxA n _ b hb
      simp only at hbv
      constructor
      · rw [hbv]; omega
      · rw [hbv]; omega

/-- C4: for every sequence of consecutive Transport Socket connection
failures, the scheduled reconnect delays never exceed the 30000 ms cap, each
is `min (2 * previous) cap` (so the sequence is non-decreasing and doubles up
to the cap), and after any successful connection the next scheduled delay is
the 1000 ms floor. -/
theorem transport_reconnect_backoff (maxA : Nat) (s : SocketState) (n : Nat)
    (hmax : 0 < maxA) :
    (∀ d ∈ failDelays maxA s n, d ≤ RECONNECT_CAP_MS) ∧
    List.Chain' (fun a b => b = min (a * 2) RECONNECT_CAP_MS ∧ a ≤ b)
      (failDelays maxA s n) ∧
    (∀ m : Nat, 0 < m →
      (failDelays maxA (connectSuccessReset s) m).head? = some RECONNECT_FLOOR_MS) := by
  refine ⟨failDelays_le_cap maxA n s, failDelays_chain maxA n s, ?_⟩
  intro m hm
  match m, hm with
  | m + 1, _ =>
    rw [failDelays_succ]
    have h0 : ¬ maxA = 0 := by omega
    simp [h0, connectSuccessReset, RECONNECT_FLOOR_MS, RECONNECT_CAP_MS]

/-- Witness for C4 at a concrete run: 8 consecutive failures from the initial
socket state with the default attempt maximum of 10. -/
theorem transport_reconnect_backoff_witness :
    (∀ d ∈ failDelays 10 ⟨1000, 0⟩ 8, d ≤ RECONNECT_CAP_MS) ∧
    List.Chain' (fun a b => b = min (a * 2) RECONNECT_CAP_MS ∧ a ≤ b)
      (failDelays 10 ⟨1000, 0⟩ 8) ∧
    (∀ m : Nat, 0 < m →
      (failDelays 10 (connectSuccessReset ⟨1000, 0⟩) m).head? =
        some RECONNECT_FLOOR_MS) :=
  transport_reconnect_backoff 10 ⟨1000, 0⟩ 8 (by decide)

/-! ### C1 — crash-loop threshold enters blocked, no spawns until unblock -/

/-- A blocked supervisor with no live process and no pending backoff timer:
exactly the state reached by crossing the crash-loop threshold. -/
def mgrBlockedQuiescent (s : MgrState) : Prop :=
  s.blocked = true ∧ s.procAlive = false ∧ s.spawnTimerPending = false

lemma mgrBlockedQuiescent_step (s : MgrState) (e : MgrEvent)
    (h : mgrBlockedQuiescent s) (hen : mgrEnabled s e = true)
    (hbt : e.isBlockTimeout = false) :
    e.isSpawnAttempt = false ∧ mgrBlockedQuiescent (mgrStep s e) := by
  obtain ⟨hb, hp, hsp⟩ := h
  cases e with
  | procClose now => rw [mgrEnabled] at hen; rw [hp] at hen; exact absurd hen (by simp)
  | procError now => rw [mgrEnabled] at hen; rw [hp] at hen; exact absurd hen (by simp)
  | spawnTimer ok now =>
      rw [mgrEnabled] at hen; rw [hsp] at hen; exact absurd hen (by simp)
  | blockTimeout => simp [MgrEvent.isBlockTimeout] at hbt
  | stabilityTimer now =>
      refine ⟨rfl, ?_⟩
      simp only [mgrStep, hp, Bool.false_and, if_false]
      exact ⟨hb, hp, hsp⟩

lemma mgrBlockedQuiescent_trace :
    ∀ (tr : List MgrEvent) (s : MgrState), mgrBlockedQuiescent s →
      mgrValidTrace s tr = true →
      (∀ e ∈ tr, e.isBlockTimeout = false) →
      (∀ e ∈ tr, e.isSpawnAttempt = false) ∧ mgrBlockedQuiescent (mgrRun s tr) := by
  intro tr
  induction tr with
  | nil => intro s h _ _; exact ⟨by simp, h⟩
  | cons e es ih =>
    intro s h hv hbt
    rw [mgrValidTrace, Bool.and_eq_true] at hv
    have hstep := mgrBlockedQuiescent_step s e h hv.1 (hbt e (by simp))
    have hrest := ih (mgrStep s e) hstep.2 hv.2
      (fun x hx => hbt x (List.mem_cons_of_mem e hx))
    refine ⟨?_, ?_⟩
    · intro x hx
      rcases List.mem_cons.mp hx with h1 | h2
      · rw [h1]; exact hstep.1
      · exact hrest.1 x h2
    · simpa [mgrRun] using hrest.2

/-- C1: when a restart is requested (the unexpected-close path into
`scheduleRestart`) while the pruned sliding window already holds at least
`FFMPEG_RESTART_MAX_ATTEMPTS` timestamps, the supervisor enters the blocked
state; in every subsequent valid event trace that does not contain the
block-timeout event, no spawn attempt occurs and the supervisor stays
blocked with no live process; and the automatic block timeout (armed for
5 minutes, `FFMPEG_BLOCK_TIMEOUT_MS`) clears both the blocked state and the
restart-attempt window.  (An explicit unblock does not appear in the event
alphabet because the manager exposes no such operation — see the `/ffmpeg/
unblock` route development below.) -/
theorem crash_loop_threshold_blocks (s : MgrState) (now : Nat)
    (_hAlive : s.procAlive = true) (hRest : s.restarting = false)
    (hPend : s.spawnTimerPending = false)
    (hCount : FFMPEG_RESTART_MAX_ATTEMPTS ≤ (pruneAttempts now s.restartAttempts).length) :
    (mgrStep s (.procClose now)).blocked = true ∧
    (mgrStep s (.procClose now)).blockTimeoutArmed = true ∧
    (∀ tr : List MgrEvent,
      mgrValidTrace (mgrStep s (.procClose now)) tr = true →
      (∀ e ∈ tr, e.isBlockTimeout = false) →
      (∀ e ∈ tr, e.isSpawnAttempt = false) ∧
        (mgrRun (mgrStep s (.procClose now)) tr).blocked = true ∧
        (mgrRun (mgrStep s (.procClose now)) tr).procAlive = false) ∧
    (mgrStep (mgrStep s (.procClose now)) .blockTimeout).blocked = false ∧
    (mgrStep (mgrStep s (.procClose now)) .blockTimeout).restartAttempts = [] := by
  have hstep : mgrStep s (.procClose now) =
      { s with procAlive := false, connected := false,
               restartAttempts := pruneAttempts now s.restartAttempts,
               blocked := true, blockTimeoutArmed := true } := by
    simp only [mgrStep, scheduleRestart, FFMPEG_AUTO_RESTART, Bool.not_true,
      Bool.false_eq_true, if_false, hRest, if_pos hCount]
  have hq : mgrBlockedQuiescent (mgrStep s (.procClose now)) := by
    rw [hstep]; exact ⟨rfl, rfl, hPend⟩
  refine ⟨hq.1, ?_, ?_, ?_, ?_⟩
  · rw [hstep]
  · intro tr hv hbt
    have := mgrBlockedQuiescent_trace tr _ hq hv hbt
    exact ⟨this.1, this.2.1, this.2.2.1⟩
  · rfl
  · rfl

/-- A supervisor state with a live process and five recent restart
timestamps already in the window: one more unexpected close crosses the
default threshold. -/
def crashLoopDemoState : MgrState :=
  { procAlive := true, connected := true, writable := true,
    restarting := false, restartAttempts := [0, 200, 400, 600, 800],
    startedAt := some 0, blocked := false, blockTimeoutArmed := false,
    spawnTimerPending := false, restarts := 5 }

/-- Witness for C1: five recent restart timestamps in the window, a sixth
unexpected close at time 1000 enters blocked; the concrete conclusion is
obtained by direct application. -/
theorem crash_loop_threshold_blocks_witness :
    (mgrStep crashLoopDemoState (.procClose 1000)).blocked = true ∧
    (mgrStep crashLoopDemoState (.procClose 1000)).blockTimeoutArmed = true ∧
    (∀ tr : List MgrEvent,
      mgrValidTrace (mgrStep crashLoopDemoState (.procClose 1000)) tr = true →
      (∀ e ∈ tr, e.isBlockTimeout = false) →
      (∀ e ∈ tr, e.isSpawnAttempt = false) ∧
        (mgrRun (mgrStep crashLoopDemoState (.procClose 1000)) tr).blocked = true ∧
        (mgrRun (mgrStep crashLoopDemoState (.procClose 1000)) tr).procAlive = false) ∧
    (mgrStep (mgrStep crashLoopDemoState (.procClose 1000)) .blockTimeout).blocked = false ∧
    (mgrStep (mgrStep crashLoopDemoState (.procClose 1000)) .blockTimeout).restartAttempts = [] :=
  crash_loop_threshold_blocks crashLoopDemoState 1000 rfl rfl rfl (by decide)

/-! ### C7 — when the restart-attempt window is cleared -/

/-- C7 counterexample: crossing the crash-loop threshold does NOT clear the
restart-attempt window.  At the concrete state with five in-window
timestamps, the threshold-crossing close event enters blocked yet leaves all
five timestamps recorded (the window is emptied only later, by the automatic
unblock timeout or the stability timer). -/
theorem window_not_cleared_at_threshold_cex :
    (mgrStep crashLoopDemoState (.procClose 1000)).blocked = true ∧
    (mgrStep crashLoopDemoState (.procClose 1000)).restartAttempts =
      [0, 200, 400, 600, 800] := by
  constructor
  · rfl
  · rfl

/-- C7 (amended): the restart-attempt window is cleared on exactly two
events — the automatic block timeout firing (which also clears `blocked`),
and the stability timer confirming the subprocess has run continuously for
`FFMPEG_STABLE_RUN_MS`; after the stability event the attempt counter is 0
and `blocked` is false.  Every other event leaves the window non-empty (the
restart-scheduling path prunes it and appends the new timestamp; threshold
crossing prunes it but keeps its in-window entries). -/
theorem attempt_window_clear_events :
    (∀ (s : MgrState) (e : MgrEvent), s.restartAttempts ≠ [] →
      (mgrStep s e).restartAttempts = [] →
      e.isBlockTimeout = true ∨ ∃ m : Nat, e = MgrEvent.stabilityTimer m) ∧
    (∀ s : MgrState,
      (mgrStep s MgrEvent.blockTimeout).restartAttempts = [] ∧
      (mgrStep s MgrEvent.blockTimeout).blocked = false) ∧
    (∀ (s : MgrState) (t0 now : Nat), s.procAlive = true → s.startedAt = some t0 →
      FFMPEG_STABLE_RUN_MS ≤ now - t0 →
      (mgrStep s (MgrEvent.stabilityTimer now)).restartAttempts = [] ∧
      (mgrStep s (MgrEvent.stabilityTimer now)).blocked = false) := by
  refine ⟨?_, ?_, ?_⟩
  · intro s e hne hclr
    cases e with
    | procClose now =>
        exfalso
        simp only [mgrStep, scheduleRestart, FFMPEG_AUTO_RESTART, Bool.not_true,
          Bool.false_eq_true, if_false] at hclr
        by_cases hr : s.restarting
        · rw [if_pos hr] at hclr; exact hne hclr
        · rw [if_neg hr] at hclr
          by_cases hc : FFMPEG_RESTART_MAX_ATTEMPTS ≤
              (pruneAttempts 0 s.restartAttempts).length
          all_goals {
            split at hclr
            · simp only at hclr
              have : 0 < (pruneAttempts now s.restartAttempts).length := by
                calc 0 < FFMPEG_RESTART_MAX_ATTEMPTS := by decide
                  _ ≤ _ := by assumption
              rw [hclr] at this; simp at this
            · simp at hclr }
    | procError now =>
        exfalso
        simp only [mgrStep, scheduleRestart, FFMPEG_AUTO_RESTART, Bool.not_true,
          Bool.false_eq_true, if_false] at hclr
        by_cases hr : s.restarting
        · rw [if_pos hr] at hclr; exact hne hclr
        · rw [if_neg hr] at hclr
          split at hclr
          · simp only at hclr
            have : 0 < (pruneAttempts now s.restartAttempts).length := by
              calc 0 < FFMPEG_RESTART_MAX_ATTEMPTS := by decide
                _ ≤ _ := by assumption
            rw [hclr] at this; simp at this
          · simp at hclr
    | spawnTimer ok now =>
        exfalso
        simp only [mgrStep, spawnStep] at hclr
        by_cases hok : ok
        · rw [hok] at hclr; simp at hclr; exact hne hclr
        · simp only [Bool.not_eq_true] at hok
          rw [hok] at hclr; simp at hclr; exact hne hclr
    | blockTimeout => exact Or.inl rfl
    | stabilityTimer now => exact Or.inr ⟨now, rfl⟩
  · intro s; exact ⟨rfl, rfl⟩
  · intro s t0 now hp hstart hstable
    simp only [mgrStep, hp, hstart, Option.isSome_some, Bool.and_true, Bool.true_and,
      Option.getD_some]
    rw [if_pos (by simpa using hstable)]
    exact ⟨rfl, rfl⟩

/-- Witness for C7 (amended) at concrete inputs: a state with two in-window
timestamps; the non-clearing implication (instantiated at a spawn-timer
event), the block-timeout clearing, and the stability clearing. -/
theorem attempt_window_clear_events_witness :
    ((mgrStep crashLoopDemoState MgrEvent.blockTimeout).restartAttempts = [] ∧
      (mgrStep crashLoopDemoState MgrEvent.blockTimeout).blocked = false) ∧
    ((mgrStep crashLoopDemoState (MgrEvent.stabilityTimer 120000)).restartAttempts = [] ∧
      (mgrStep crashLoopDemoState (MgrEvent.stabilityTimer 120000)).blocked = false) :=
  ⟨attempt_window_clear_events.2.1 crashLoopDemoState,
    attempt_window_clear_events.2.2 crashLoopDemoState 0 120000 rfl rfl (by decide)⟩

/-! ### C3 — spawn failure is NOT routed through the restart path -/

/-- The supervisor state at the moment a scheduled backoff timer fires: no
live process, `restartingFfmpeg` set, the spawn timer pending, two attempts
recorded. -/
def spawnFailDemoState : MgrState :=
  { procAlive := false, connected := false, writable := true,
    restarting := true, restartAttempts := [0, 400],
    startedAt := none, blocked := false, blockTimeoutArmed := false,
    spawnTimerPending := true, restarts := 2 }

/-- C3 counterexample: a spawn attempt that fails to produce a process
handle is NOT treated like a crash.  At the concrete state, the failing
spawn leaves no backoff timer pending and no restart in progress and instead
enters the blocked state (with no automatic unblock armed), whereas the
crash path (unexpected close below threshold) arms the backoff timer. -/
theorem spawn_failure_not_rescheduled_cex :
    (mgrStep spawnFailDemoState (.spawnTimer false 5000)).spawnTimerPending = false ∧
    (mgrStep spawnFailDemoState (.spawnTimer false 5000)).restarting = false ∧
    (mgrStep spawnFailDemoState (.spawnTimer false 5000)).blocked = true ∧
    (mgrStep spawnFailDemoState (.spawnTimer false 5000)).blockTimeoutArmed = false ∧
    (mgrStep
        { spawnFailDemoState with
          procAlive := true, restarting := false, spawnTimerPending := false }
        (.procClose 5000)).spawnTimerPending = true := by
  refine ⟨rfl, rfl, rfl, rfl, ?_⟩
  decide

/-- C3 (amended): a spawn attempt that fails to produce a process handle
(either `spawn` throwing or a child with no PID) sets `connected = false`
and enters the blocked state without scheduling anything: no backoff timer,
no restart in progress, no automatic unblock, and the attempt window is
untouched.  The supervisor is left stopped rather than restarted. -/
theorem spawn_failure_enters_blocked (s : MgrState) (now : Nat) :
    mgrStep s (.spawnTimer false now) =
      { s with restarting := false, spawnTimerPending := false,
               connected := false, blocked := true, procAlive := false } := rfl

/-! ### C2 — the manual unblock operation is missing -/

/-- C2: the `createFfmpegManager` API exposes no `manualUnblock` property,
so every `POST /ffmpeg/unblock` request evaluates
`ffmpegManager.manualUnblock()` on an undefined property and throws a
`TypeError` instead of answering 204 (unblocked) or 409 ("not blocked") —
whatever boolean a manual unblock would have returned. -/
theorem unblock_route_always_throws :
    managerHasManualUnblock = false ∧
    ∀ r : Bool,
      postFfmpegUnblockRoute managerHasManualUnblock r =
        UnblockRouteResult.uncaughtTypeError := by
  refine ⟨by decide, ?_⟩
  intro r
  cases r <;> decide

/-! ### C5 — ingest pause iff not-writable, resume only on drain -/

lemma onDataChunk_never_resumes (stdinAvail : Bool) (w : WriteOutcome)
    (s : IngestState) (h : s.socketPaused = true) :
    (onDataChunk stdinAvail w s).socketPaused = true := by
  unfold onDataChunk
  split
  · exact h
  · split
    · rfl
    · cases w <;> simp <;> exact h

/-- C5: on every inbound producer chunk processed while the encoder stdin is
available, the producer socket gets paused exactly when the shared writable
flag is already false (the record of the most recent write having reported
not-writable) or this chunk's own write reports not-writable (returns
`false` or throws `EPIPE`); a paused socket stays paused across any events
that do not include the encoder `drain`; and the `drain` event resumes the
pending socket.  No timer appears in the protocol's event alphabet: the code
resumes only from the stdin `drain` handler. -/
theorem ingest_pause_iff_drain_resume (s : IngestState) (w : WriteOutcome)
    (hp : s.socketPaused = false) :
    ((ingestStep s (.chunk true w)).socketPaused = true ↔
      (s.ffWritable = false ∨ w.reportsNotWritable = true)) ∧
    (∀ (s₂ : IngestState) (tr : List IngestEvent), s₂.socketPaused = true →
      (∀ e ∈ tr, e ≠ IngestEvent.ffmpegDrain) →
      (ingestRun s₂ tr).socketPaused = true) ∧
    (∀ s₂ : IngestState, s₂.pendingResume = true →
      (ingestStep s₂ IngestEvent.ffmpegDrain).socketPaused = false ∧
      (ingestStep s₂ IngestEvent.ffmpegDrain).ffWritable = true) := by
  refine ⟨?_, ?_, ?_⟩
  · rcases s with ⟨fw, sp, pr⟩
    simp only at hp
    subst hp
    cases fw <;> cases pr <;> cases w <;>
      simp [ingestStep, onDataChunk, WriteOutcome.reportsNotWritable]
  · intro s₂ tr
    induction tr generalizing s₂ with
    | nil => intro h _; exact h
    | cons e es ih =>
      intro h hnd
      cases e with
      | chunk a w' =>
          exact ih (onDataChunk a w' s₂) (onDataChunk_never_resumes a w' s₂ h)
            (fun x hx => hnd x (List.mem_cons_of_mem _ hx))
      | ffmpegDrain => exact absurd rfl (hnd _ (by simp))
  · intro s₂ hpend
    simp [ingestStep, onFfmpegDrain, hpend]

/-- Witness for C5: a not-yet-paused socket, a chunk whose write reports
backpressure, and a concrete paused state with a drain. -/
theorem ingest_pause_iff_drain_resume_witness :
    (((ingestStep ⟨true, false, false⟩ (.chunk true .backpressure)).socketPaused = true ↔
      ((⟨true, false, false⟩ : IngestState).ffWritable = false ∨
        WriteOutcome.backpressure.reportsNotWritable = true)) ∧
    (∀ (s₂ : IngestState) (tr : List IngestEvent), s₂.socketPaused = true →
      (∀ e ∈ tr, e ≠ IngestEvent.ffmpegDrain) →
      (ingestRun s₂ tr).socketPaused = true) ∧
    (∀ s₂ : IngestState, s₂.pendingResume = true →
      (ingestStep s₂ IngestEvent.ffmpegDrain).socketPaused = false ∧
      (ingestStep s₂ IngestEvent.ffmpegDrain).ffWritable = true)) :=
  ingest_pause_iff_drain_resume ⟨true, false, false⟩ WriteOutcome.backpressure rfl

/-! ### C6 — silence filler per-tick write discipline -/

/-- C6: on every tick of the silence filler, no write call is made while the
paused or backpressure flag is set; when neither flag is set and the encoder
is writable (live stdin and a true shared writable flag), exactly one write
call is made, handing the encoder one fixed `SILENCE_CHUNK_SIZE`-byte silent
chunk; a write returning `false` latches the backpressure flag (and clears
the shared writable flag), and a tick in a latched state performs no write. -/
theorem silence_tick_write_discipline (env : SilenceEnv) (s : SilenceState) :
    ((s.paused = true ∨ s.backpressure = true) →
      (writeSilenceChunk env s).2.2 = 0 ∧ (writeSilenceChunk env s).1 = s) ∧
    (s.paused = false → s.backpressure = false → env.stdinAvail = true →
      env.writable = true → (writeSilenceChunk env s).2.2 = 1) ∧
    (s.paused = false → s.backpressure = false → env.stdinAvail = true →
      env.writable = true → env.writeOutcome = .backpressure →
      (writeSilenceChunk env s).1.backpressure = true ∧
      (writeSilenceChunk env s).2.1 = false) ∧
    (s.backpressure = true → ∀ env' : SilenceEnv,
      (writeSilenceChunk env' ((writeSilenceChunk env s).1)).2.2 = 0) := by
  refine ⟨?_, ?_, ?_, ?_⟩
  · intro h
    have hcond : (s.paused || s.backpressure) = true := by
      rcases h with h | h <;> simp [h]
    simp [writeSilenceChunk, hcond]
  · intro hp hb hs hw
    rcases env with ⟨es, ew, wo⟩
    simp only at hs hw
    subst hs; subst hw
    rcases s with ⟨ia, pa, bp, it⟩
    simp only at hp hb
    subst hp; subst hb
    cases wo <;> rfl
  · intro hp hb hs hw ho
    rcases env with ⟨es, ew, wo⟩
    simp only at hs hw ho
    subst hs; subst hw; subst ho
    rcases s with ⟨ia, pa, bp, it⟩
    simp only at hp hb
    subst hp; subst hb
    exact ⟨rfl, rfl⟩
  · intro hb env'
    have h1 : (writeSilenceChunk env s).1 = s := by
      simp [writeSilenceChunk, hb]
    rw [h1]
    simp [writeSilenceChunk, hb]

/-- Witness for C6 at a concrete tick: filler running with both flags clear,
encoder live and writable, write reporting backpressure. -/
theorem silence_tick_write_discipline_witness :
    (((false : Bool) = true ∨ (false : Bool) = true) →
      (writeSilenceChunk ⟨true, true, .backpressure⟩ ⟨true, false, false, false⟩).2.2 = 0 ∧
      (writeSilenceChunk ⟨true, true, .backpressure⟩ ⟨true, false, false, false⟩).1 =
        ⟨true, false, false, false⟩) ∧
    ((false : Bool) = false → (false : Bool) = false → (true : Bool) = true →
      (true : Bool) = true →
      (writeSilenceChunk ⟨true, true, .backpressure⟩ ⟨true, false, false, false⟩).2.2 = 1) ∧
    ((false : Bool) = false → (false : Bool) = false → (true : Bool) = true →
      (true : Bool) = true →
      SilenceEnv.writeOutcome ⟨true, true, .backpressure⟩ = .backpressure →
      (writeSilenceChunk ⟨true, true, .backpressure⟩
          ⟨true, false, false, false⟩).1.backpressure = true ∧
      (writeSilenceChunk ⟨true, true, .backpressure⟩ ⟨true, false, false, false⟩).2.1 = false) ∧
    ((false : Bool) = true → ∀ env' : SilenceEnv,
      (writeSilenceChunk env'
          ((writeSilenceChunk ⟨true, true, .backpressure⟩
            ⟨true, false, false, false⟩).1)).2.2 = 0) :=
  silence_tick_write_discipline ⟨true, true, .backpressure⟩ ⟨true, false, false, false⟩

/-! ### C10 — dead-encoder ticks latch backpressure until an explicit clear -/

lemma silRunTicks_latched :
    ∀ (envs : List SilenceEnv) (s : SilenceState), s.backpressure = true →
      (silRunTicks s envs).2 = 0 ∧ (silRunTicks s envs).1.backpressure = true := by
  intro envs
  induction envs with
  | nil => intro s h; exact ⟨rfl, h⟩
  | cons env envs ih =>
    intro s h
    have hw : silTickWrites env s = 0 := by
      unfold silTickWrites writeSilenceChunk
      rw [h]
      simp
    have hstep : silStep s (.tick env) = s := by
      unfold silStep writeSilenceChunk
      rw [h]
      simp
    have := ih s h
    simp only [silRunTicks, hw, hstep, Nat.zero_add]
    exact this

/-- C10: a silence-filler tick that reaches the write path (flags clear)
but finds the encoder stdin missing/destroyed, or finds the shared writable
flag false, performs no write call and latches the backpressure flag; from
any latched state, every further sequence of ticks — under arbitrary
environments, including a freshly spawned encoder with live, writable
stdin — performs no write calls and leaves the flag latched; and the flag is
cleared by `resetBackpressure`, by the `resumeAfterDelay` timer firing while
the interval is active, and by `stop` followed by `start`. -/
theorem silence_dead_encoder_latch (env : SilenceEnv) (s : SilenceState)
    (hi : s.intervalActive = true) (hp : s.paused = false)
    (hb : s.backpressure = false) :
    ((env.stdinAvail = false ∨ env.writable = false) →
      silTickWrites env s = 0 ∧ (silStep s (.tick env)).backpressure = true) ∧
    (∀ (s₂ : SilenceState) (envs : List SilenceEnv), s₂.backpressure = true →
      (silRunTicks s₂ envs).2 = 0 ∧ (silRunTicks s₂ envs).1.backpressure = true) ∧
    (∀ s₂ : SilenceState, (silStep s₂ .resetBp).backpressure = false) ∧
    (∀ s₂ : SilenceState, s₂.intervalActive = true → s₂.idleTimerArmed = true →
      (silStep s₂ .resumeDelayFire).backpressure = false) ∧
    (∀ s₂ : SilenceState, (silStep (silStep s₂ .stopGen) .startGen).backpressure = false) := by
  refine ⟨?_, fun s₂ envs => silRunTicks_latched envs s₂, ?_, ?_, ?_⟩
  · intro h
    rcases s with ⟨ia, pa, bp, it⟩
    simp only at hi hp hb
    subst hi; subst hp; subst hb
    rcases env with ⟨es, ew, wo⟩
    rcases h with h | h <;> simp only at h <;> subst h
    · constructor
      · rfl
      · cases ew <;> rfl
    · cases es <;> exact ⟨rfl, rfl⟩
  · intro s₂; rfl
  · intro s₂ hia hit
    simp [silStep, hia, hit]
  · intro s₂; rfl

/-- Witness for C10: an active, unlatched filler whose tick meets a dead
encoder stdin. -/
theorem silence_dead_encoder_latch_witness :
    ((SilenceEnv.stdinAvail ⟨false, true, .ok⟩ = false ∨
        SilenceEnv.writable ⟨false, true, .ok⟩ = false) →
      silTickWrites ⟨false, true, .ok⟩ ⟨true, false, false, false⟩ = 0 ∧
      (silStep ⟨true, false, false, false⟩ (.tick ⟨false, true, .ok⟩)).backpressure = true) ∧
    (∀ (s₂ : SilenceState) (envs : List SilenceEnv), s₂.backpressure = true →
      (silRunTicks s₂ envs).2 = 0 ∧ (silRunTicks s₂ envs).1.backpressure = true) ∧
    (∀ s₂ : SilenceState, (silStep s₂ .resetBp).backpressure = false) ∧
    (∀ s₂ : SilenceState, s₂.intervalActive = true → s₂.idleTimerArmed = true →
      (silStep s₂ .resumeDelayFire).backpressure = false) ∧
    (∀ s₂ : SilenceState, (silStep (silStep s₂ .stopGen) .startGen).backpressure = false) :=
  silence_dead_encoder_latch ⟨false, true, .ok⟩ ⟨true, false, false, false⟩ rfl rfl rfl

/-! ### C8 — natural decode completion advances or halts -/

lemma addToHistory_fields (s : PlayerState) :
    (addToHistory s).playlistLen = s.playlistLen ∧
    (addToHistory s).shuffle = s.shuffle ∧
    (addToHistory s).shuffledQueue = s.shuffledQueue ∧
    (addToHistory s).currentIndex = s.currentIndex ∧
    (addToHistory s).procRunning = s.procRunning := by
  unfold addToHistory
  split <;> exact ⟨rfl, rfl, rfl, rfl, rfl⟩

lemma refreshShuffleQueue_mem (oracle : List Nat → List Nat)
    (horacle : ∀ (l : List Nat) (x : Nat), x ∈ oracle l ↔ x ∈ l)
    (ex : Int) (s : PlayerState) (x : Nat)
    (hx : x ∈ (refreshShuffleQueue oracle ex s).shuffledQueue) :
    x < s.playlistLen := by
  unfold refreshShuffleQueue at hx
  simp only at hx
  rw [horacle] at hx
  exact List.mem_range.mp (List.mem_filter.mp hx).1

lemma refreshShuffleQueue_ne_nil (oracle : List Nat → List Nat)
    (horacle : ∀ (l : List Nat) (x : Nat), x ∈ oracle l ↔ x ∈ l)
    (ex : Int) (s : PlayerState) (hlen : 0 < s.playlistLen) :
    (refreshShuffleQueue oracle ex s).shuffledQueue ≠ [] := by
  unfold refreshShuffleQueue
  simp only
  rcases Nat.lt_or_ge 1 s.playlistLen with h2 | h1
  · have hcin : (if (0 : Int) = ex then 1 else 0) ∈
        (List.range s.playlistLen).filter
          (fun (idx : Nat) => (((idx : Int) ≠ ex) || s.playlistLen = 1)) := by
      apply List.mem_filter.mpr
      constructor
      · apply List.mem_range.mpr
        split <;> omega
      · by_cases h : (0 : Int) = ex
        · rw [if_pos h]
          simp only [Bool.or_eq_true, decide_eq_true_eq]
          left
          omega
        · rw [if_neg h]
          simp only [Bool.or_eq_true, decide_eq_true_eq]
          left
          push_cast
          omega
    exact List.ne_nil_of_mem ((horacle _ _).mpr hcin)
  · have hone : s.playlistLen = 1 := by omega
    have hcin : 0 ∈ (List.range s.playlistLen).filter
        (fun (idx : Nat) => (((idx : Int) ≠ ex) || s.playlistLen = 1)) := by
      apply List.mem_filter.mpr
      refine ⟨List.mem_range.mpr (by omega), ?_⟩
      simp [hone]
    exact List.ne_nil_of_mem ((horacle _ _).mpr hcin)

lemma pickNextIndex_playlistLen (oracle : List Nat → List Nat) (s : PlayerState) :
    (pickNextIndex oracle s).2.playlistLen = s.playlistLen := by
  unfold pickNextIndex refreshShuffleQueue
  split
  · rfl
  · split
    · split <;> rfl
    · by_cases hq : s.shuffledQueue.isEmpty = true
      · rw [if_pos hq]
        dsimp only
        split <;> rfl
      · rw [if_neg hq]
        dsimp only
        split <;> rfl

lemma pickNextIndex_valid (oracle : List Nat → List Nat)
    (horacle : ∀ (l : List Nat) (x : Nat), x ∈ oracle l ↔ x ∈ l)
    (s : PlayerState) (hlen : 0 < s.playlistLen)
    (hqueue : ∀ x ∈ s.shuffledQueue, x < s.playlistLen)
    (hcur : -1 ≤ s.currentIndex) :
    ∃ n : Nat, (pickNextIndex oracle s).1 = (n : Int) ∧ n < s.playlistLen := by
  unfold pickNextIndex
  rw [if_neg (by omega : ¬ s.playlistLen = 0)]
  by_cases hsh : s.shuffle
  · simp only [hsh, Bool.not_true, Bool.false_eq_true, if_false]
    by_cases hq : s.shuffledQueue.isEmpty = true
    · rw [if_pos hq]
      have hne := refreshShuffleQueue_ne_nil oracle horacle s.currentIndex s hlen
      rcases hh : (refreshShuffleQueue oracle s.currentIndex s).shuffledQueue
        with _ | ⟨n, rest⟩
      · exact absurd hh hne
      · refine ⟨n, ?_, ?_⟩
        · simp only [hh]
        · exact refreshShuffleQueue_mem oracle horacle s.currentIndex s n
            (by rw [hh]; exact List.mem_cons_self n rest)
    · rw [if_neg hq]
      rcases hh : s.shuffledQueue with _ | ⟨n, rest⟩
      · rw [hh] at hq; simp at hq
      · exact ⟨n, rfl, hqueue n (by rw [hh]; exact List.mem_cons_self n rest)⟩
  · simp only [Bool.not_eq_true] at hsh
    simp only [hsh, Bool.not_false, if_true]
    by_cases hc : s.currentIndex = -1
    · refine ⟨0, ?_, hlen⟩
      rw [if_pos hc]
      simp
    · rw [if_neg hc]
      have hnn : (0 : Int) ≤ s.currentIndex + 1 := by omega
      refine ⟨((s.currentIndex + 1).tmod (s.playlistLen : Int)).toNat, ?_, ?_⟩
      · simp only
        rw [Int.toNat_of_nonneg (Int.tmod_nonneg _ hnn)]
      · have hlt : (s.currentIndex + 1).tmod (s.playlistLen : Int) < (s.playlistLen : Int) :=
          Int.tmod_lt_of_pos _ (by exact_mod_cast hlen)
        have hge := Int.tmod_nonneg ((s.playlistLen : Int)) hnn
        omega

/-- C8: on a decode-subprocess close with no stop intent set and the
controller not shutting down — if the playlist is empty no next track
exists, playback halts and the current index resets to −1; if the playlist
is non-empty (and the decode spawn for the next track succeeds), playback
advances automatically to exactly the index picked by `pickNextIndex`,
which is a valid playlist index.  The shuffle reorder is an oracle assumed
only to preserve membership, and the shuffle queue is assumed to hold only
in-range indices (the invariant `refreshShuffleQueue` establishes). -/
theorem decode_close_auto_advance (oracle : List Nat → List Nat)
    (spawnOk : Bool) (s : PlayerState)
    (hintent : s.stopIntent = none) (hshut : s.shuttingDown = false)
    (horacle : ∀ (l : List Nat) (x : Nat), x ∈ oracle l ↔ x ∈ l)
    (hqueue : ∀ x ∈ s.shuffledQueue, x < s.playlistLen)
    (hcur : -1 ≤ s.currentIndex) :
    (s.playlistLen = 0 →
      (onDecodeClose oracle spawnOk s).currentIndex = -1 ∧
      (onDecodeClose oracle spawnOk s).procRunning = false) ∧
    (0 < s.playlistLen → spawnOk = true →
      ∃ n : Nat, n < s.playlistLen ∧
        (pickNextIndex oracle (addToHistory { s with procRunning := false })).1 = (n : Int) ∧
        (onDecodeClose oracle spawnOk s).currentIndex = (n : Int) ∧
        (onDecodeClose oracle spawnOk s).procRunning = true) := by
  rcases s with ⟨len, cur, sh, q, hist, pr, si, sd, ip, off⟩
  simp only at hintent hshut hqueue hcur ⊢
  subst hintent
  subst hshut
  have hfields := addToHistory_fields
    { playlistLen := len, currentIndex := cur, shuffle := sh, shuffledQueue := q,
      history := hist, procRunning := false, stopIntent := none,
      shuttingDown := false, isPaused := ip, offset := off }
  have hstep : onDecodeClose oracle spawnOk
      { playlistLen := len, currentIndex := cur, shuffle := sh, shuffledQueue := q,
        history := hist, procRunning := pr, stopIntent := none,
        shuttingDown := false, isPaused := ip, offset := off } =
      (if (pickNextIndex oracle (addToHistory
          { playlistLen := len, currentIndex := cur, shuffle := sh, shuffledQueue := q,
            history := hist, procRunning := false, stopIntent := none,
            shuttingDown := false, isPaused := ip, offset := off })).1 = -1 then
        setCurrentIndex (-1) (pickNextIndex oracle (addToHistory
          { playlistLen := len, currentIndex := cur, shuffle := sh, shuffledQueue := q,
            history := hist, procRunning := false, stopIntent := none,
            shuttingDown := false, isPaused := ip, offset := off })).2
      else
        playTrackAtIndex spawnOk (pickNextIndex oracle (addToHistory
          { playlistLen := len, currentIndex := cur, shuffle := sh, shuffledQueue := q,
            history := hist, procRunning := false, stopIntent := none,
            shuttingDown := false, isPaused := ip, offset := off })).1 0
          (pickNextIndex oracle (addToHistory
          { playlistLen := len, currentIndex := cur, shuffle := sh, shuffledQueue := q,
            history := hist, procRunning := false, stopIntent := none,
            shuttingDown := false, isPaused := ip, offset := off })).2) := by
    unfold onDecodeClose
    simp only [Option.isSome_none, Bool.false_eq_true, if_false]
  rw [hstep]
  constructor
  · intro hlen0
    have hpick : pickNextIndex oracle (addToHistory
        { playlistLen := len, currentIndex := cur, shuffle := sh, shuffledQueue := q,
          history := hist, procRunning := false, stopIntent := none,
          shuttingDown := false, isPaused := ip, offset := off }) =
        (-1, addToHistory
          { playlistLen := len, currentIndex := cur, shuffle := sh, shuffledQueue := q,
            history := hist, procRunning := false, stopIntent := none,
            shuttingDown := false, isPaused := ip, offset := off }) := by
      unfold pickNextIndex
      rw [if_pos]
      rw [hfields.1]
      exact hlen0
    rw [hpick]
    rw [if_pos rfl]
    refine ⟨rfl, ?_⟩
    simp only [setCurrentIndex]
    exact hfields.2.2.2.2
  · intro hlen hok
    subst hok
    obtain ⟨n, hn1, hn2⟩ := pickNextIndex_valid oracle horacle _
      (by rw [hfields.1]; exact hlen)
      (by rw [hfields.2.2.1, hfields.1]; exact hqueue)
      (by rw [hfields.2.2.2.1]; exact hcur)
    rw [hfields.1] at hn2
    refine ⟨n, hn2, hn1, ?_⟩
    rw [hn1]
    rw [if_neg (by omega : ¬ ((n : Int) = -1))]
    have hlen₂ : (pickNextIndex oracle (addToHistory
        { playlistLen := len, currentIndex := cur, shuffle := sh, shuffledQueue := q,
          history := hist, procRunning := false, stopIntent := none,
          shuttingDown := false, isPaused := ip, offset := off })).2.playlistLen = len := by
      rw [pickNextIndex_playlistLen]
      exact hfields.1
    have ht : trackExists (pickNextIndex oracle (addToHistory
        { playlistLen := len, currentIndex := cur, shuffle := sh, shuffledQueue := q,
          history := hist, procRunning := false, stopIntent := none,
          shuttingDown := false, isPaused := ip, offset := off })).2 (n : Int) = true := by
      simp only [trackExists, hlen₂, Bool.and_eq_true, decide_eq_true_eq]
      constructor
      · omega
      · exact_mod_cast hn2
    unfold playTrackAtIndex
    rw [ht]
    simp [setCurrentIndex]

/-- Witness for C8: a two-track non-shuffle playlist, track 0 just finished,
identity shuffle oracle; the close handler advances to the next track. -/
theorem decode_close_auto_advance_witness :
    (((2 : Nat) = 0 →
      (onDecodeClose id true
          { playlistLen := 2, currentIndex := 0, shuffle := false,
            shuffledQueue := [], history := [], procRunning := true,
            stopIntent := none, shuttingDown := false, isPaused := false,
            offset := 0 }).currentIndex = -1 ∧
      (onDecodeClose id true
          { playlistLen := 2, currentIndex := 0, shuffle := false,
            shuffledQueue := [], history := [], procRunning := true,
            stopIntent := none, shuttingDown := false, isPaused := false,
            offset := 0 }).procRunning = false) ∧
    ((0 : Nat) < 2 → true = true →
      ∃ n : Nat, n < 2 ∧
        (pickNextIndex id (addToHistory
          { playlistLen := 2, currentIndex := 0, shuffle := false,
            shuffledQueue := [], history := [], procRunning := false,
            stopIntent := none, shuttingDown := false, isPaused := false,
            offset := 0 })).1 = (n : Int) ∧
        (onDecodeClose id true
          { playlistLen := 2, currentIndex := 0, shuffle := false,
            shuffledQueue := [], history := [], procRunning := true,
            stopIntent := none, shuttingDown := false, isPaused := false,
            offset := 0 }).currentIndex = (n : Int) ∧
        (onDecodeClose id true
          { playlistLen := 2, currentIndex := 0, shuffle := false,
            shuffledQueue := [], history := [], procRunning := true,
            stopIntent := none, shuttingDown := false, isPaused := false,
            offset := 0 }).procRunning = true)) :=
  decode_close_auto_advance id true
    { playlistLen := 2, currentIndex := 0, shuffle := false,
      shuffledQueue := [], history := [], procRunning := true,
      stopIntent := none, shuttingDown := false, isPaused := false,
      offset := 0 }
    rfl rfl (fun _ _ => Iff.rfl) (by simp) (by decide)

/-! ### C9 — single-producer replacement guards -/

/-- C9: the Ingest Listener tracks at most one producer (structurally, the
`currentProducer` option).  When a new connection arrives while socket `old`
is active, `attachProducer` destroys `old` (first component) before
installing `new` as the current producer; and when the destroyed old
socket's close event later fires, the `currentProducer === socket` and
`pendingSocketResume === socket` guards leave the newly installed producer
and any pending-resume reference that does not denote the old socket
unchanged. -/
theorem producer_replacement_guards (s : ProducerState) (old new : Nat)
    (hcur : s.currentProducer = some old) (hne : old ≠ new) :
    (attachProducer new s).1 = some old ∧
    ((attachProducer new s).2).currentProducer = some new ∧
    (onProducerClose old (attachProducer new s).2).currentProducer = some new ∧
    ((attachProducer new s).2.pendingResume = some new →
      (onProducerClose old (attachProducer new s).2).pendingResume = some new) ∧
    ((attachProducer new s).2.pendingResume ≠ some old →
      (onProducerClose old (attachProducer new s).2).pendingResume =
        (attachProducer new s).2.pendingResume) := by
  refine ⟨by rw [attachProducer, hcur], rfl, ?_, ?_, ?_⟩
  · simp only [onProducerClose, attachProducer]
    rw [if_neg]
    simp only [Option.some_inj]
    omega
  · intro hpend
    simp only [attachProducer] at hpend
    simp only [onProducerClose, attachProducer, hpend]
    rw [if_neg]
    simp only [Option.some_inj]
    omega
  · intro hpend
    simp only [attachProducer] at hpend
    simp only [onProducerClose, attachProducer]
    rw [if_neg hpend]

/-- Witness for C9: producer 1 active with a pending resume on itself,
replaced by producer 2; the late close of socket 1 leaves producer 2
installed. -/
theorem producer_replacement_guards_witness :
    (attachProducer 2 ⟨some 1, some 1⟩).1 = some 1 ∧
    ((attachProducer 2 ⟨some 1, some 1⟩).2).currentProducer = some 2 ∧
    (onProducerClose 1 (attachProducer 2 ⟨some 1, some 1⟩).2).currentProducer = some 2 ∧
    ((attachProducer 2 ⟨some 1, some 1⟩).2.pendingResume = some 2 →
      (onProducerClose 1 (attachProducer 2 ⟨some 1, some 1⟩).2).pendingResume = some 2) ∧
    ((attachProducer 2 ⟨some 1, some 1⟩).2.pendingResume ≠ some 1 →
      (onProducerClose 1 (attachProducer 2 ⟨some 1, some 1⟩).2).pendingResume =
        (attachProducer 2 ⟨some 1, some 1⟩).2.pendingResume) :=
  producer_replacement_guards ⟨some 1, some 1⟩ 1 2 rfl (by decide)

end StreamDJ
